import Mathlib

/-!
Verification development for the scintillometry data-acquisition layer:
the PSRFITS calibrated-record decoder (`scintillometry/io/psrfits/hdu.py`,
`core.py`) and the stream-combination engine (`scintillometry/combining.py`).

The Python code is shallowly embedded: numpy float arrays become nested
lists of rationals (the claims under study are about exact arithmetic
identities, index bounds and control flow, none of which depend on
floating-point rounding), astropy `Time`/`Quantity` values become rationals
measured in seconds / MHz, and every fallible operation returns `Except`.
-/

namespace Scint

/-- Mean of a list of rationals, as computed by `numpy.mean` / `Quantity.mean`
(sum divided by length; division by zero yields 0 in `ℚ`, the degenerate
empty-table case is excluded by hypotheses where it matters). -/
def meanQ (xs : List ℚ) : ℚ := xs.sum / xs.length

/-- Python-style list indexing with an `Int` index: a negative index counts
from the end (`xs[-1]` is the last element); out-of-range gives `none`
(numpy raises `IndexError`). -/
def pyGet (xs : List α) (i : Int) : Option α :=
  if 0 ≤ i then xs.get? i.toNat
  else
    let j : Int := i + xs.length
    if 0 ≤ j then xs.get? j.toNat else none

/-! ## Primary HDU (`PSRFITSPrimaryHDU`) -/

/-- Value of the `ZERO_OFF` header card as seen by `read_data_row`:
absent, a FITS numeric value, or a non-numeric string (for which Python's
`float(zero_off)` raises, e.g. the value `*` mentioned in the source
comment).  FITS headers store numbers typed, so a numeric value arrives
as a number, not as text. -/
inductive ZeroOffVal where
  | absent
  | num (q : ℚ)
  | nonNumeric
  deriving DecidableEq, Repr

/-- Model of the PSRFITS primary HDU header: the cards used by the wrapped
properties that the claims touch.  `STT_IMJD` is the integer MJD,
`STT_SMJD`/`STT_OFFS` the integer and fractional seconds of the start
epoch; `OBSNCHAN`/`OBSFREQ`/`OBSBW` may be absent (then `frequency` is
`None`).  The `ANT_X/Y/Z` location only feeds astropy's `Time` location
argument and has no effect on the epoch arithmetic, so it is omitted. -/
structure PrimaryHDUModel where
  SIMPLE : Bool
  FITSTYPE : String
  STT_IMJD : ℚ
  STT_SMJD : ℚ
  STT_OFFS : ℚ
  OBSNCHAN : Option ℕ
  OBSFREQ : Option ℚ
  OBSBW : Option ℚ
  OBS_MODE : String
  deriving DecidableEq, Repr

namespace PrimaryHDUModel

/-- `PSRFITSPrimaryHDU.verify`: `SIMPLE` must hold and `FITSTYPE` must be
the literal `PSRFITS`. -/
def verify (h : PrimaryHDUModel) : Bool :=
  h.SIMPLE && (h.FITSTYPE == "PSRFITS")

/-- `PSRFITSPrimaryHDU.start_time`:
`Time(STT_IMJD, format=mjd) + TimeDelta(STT_SMJD, STT_OFFS, format=sec)`,
modelled as rational seconds since the MJD origin (one day = 86400 s). -/
def start_time (h : PrimaryHDUModel) : ℚ :=
  h.STT_IMJD * 86400 + (h.STT_SMJD + h.STT_OFFS)

/-- `PSRFITSPrimaryHDU.frequency`: per-channel center frequencies in MHz,
`c_freq + (arange(1, n_chan + 1) - ((n_chan + 1) // 2)) * (bw / n_chan)`;
`None` when any of the three cards is missing.  `//` is Python floor
division on the integer `n_chan`, hence `Nat` division here. -/
def frequency (h : PrimaryHDUModel) : Option (List ℚ) :=
  match h.OBSNCHAN, h.OBSFREQ, h.OBSBW with
  | some n_chan, some c_freq, some bw =>
      let chan_bw := bw / n_chan
      some ((List.range n_chan).map fun i =>
        c_freq + (((i + 1 : ℕ) : ℚ) - (((n_chan + 1) / 2 : ℕ) : ℚ)) * chan_bw)
  | _, _, _ => none

end PrimaryHDUModel

/-! ## SUBINT HDU (`SubintHDU` / `PSRSubintHDU`) -/

/-- Model of the SUBINT binary-table columns.  `DATA` rows have shape
(npol, nchan, nbin); `DAT_SCL`/`DAT_OFFS` are flat per-row coefficient
vectors; `DAT_WTS` (per-row weights), `DAT_FREQ` (per-row frequencies) and
`OFFS_SUB` (per-row sub-integration offsets, seconds) are optional columns
(`none` when the column is missing from `data.names`). -/
structure SubintData where
  DATA : List (List (List (List ℚ)))
  DAT_SCL : List (List ℚ)
  DAT_OFFS : List (List ℚ)
  DAT_WTS : Option (List (List ℚ))
  DAT_FREQ : Option (List (List ℚ))
  TSUBINT : List ℚ
  OFFS_SUB : Option (List ℚ)
  deriving DecidableEq, Repr

/-- Model of the SUBINT extension header cards used by the wrapper. -/
structure SubintHeaderModel where
  EXTNAME : String
  NAXIS2 : ℕ
  NCHAN : ℕ
  NPOL : ℕ
  NBIN : ℕ
  ZERO_OFF : ZeroOffVal
  deriving DecidableEq, Repr

/-- A wrapped SUBINT HDU together with its wrapped primary HDU
(`SubintHDU.__init__` stores `primary_hdu`). -/
structure SubintHDUModel where
  header : SubintHeaderModel
  data : SubintData
  primary : PrimaryHDUModel
  deriving DecidableEq, Repr

namespace SubintHDUModel

def nrow (h : SubintHDUModel) : ℕ := h.header.NAXIS2
def nchan (h : SubintHDUModel) : ℕ := h.header.NCHAN
def npol (h : SubintHDUModel) : ℕ := h.header.NPOL
def nbin (h : SubintHDUModel) : ℕ := h.header.NBIN

/-- `PSRSubintHDU.samples_per_frame` is the constant 1. -/
def samples_per_frame (_h : SubintHDUModel) : ℕ := 1

/-- `PSRSubintHDU.sample_rate = 1 / mean(TSUBINT)` (per second). -/
def sample_rate (h : SubintHDUModel) : ℚ := 1 / meanQ h.data.TSUBINT

/-- `SubintHDU.shape[0] = nrow * samples_per_frame`. -/
def shape0 (h : SubintHDUModel) : ℕ := h.nrow * h.samples_per_frame

/-- `PSRSubintHDU.start_time`: the primary epoch, plus — when the
`OFFS_SUB` column exists — the first row's offset minus
`samples_per_frame / 2 / sample_rate` (half a sample period). -/
def start_time (h : SubintHDUModel) : ℚ :=
  let base := h.primary.start_time
  match h.data.OFFS_SUB with
  | some col =>
      base + (col.headD 0 - (h.samples_per_frame : ℚ) / 2 / h.sample_rate)
  | none => base

end SubintHDUModel

/-! ### Per-row decode (`SubintHDU.read_data_row`)

`read_data_row` computes `(row[DATA] - zero_off) * row[DAT_SCL].reshape(-1, 1)
+ row[DAT_OFFS].reshape(-1, 1)`, optionally times
`row[DAT_WTS].reshape(-1, 1)`.  The `DATA` cell is a 3-D numpy array of
shape (npol, nchan, nbin) and the reshaped coefficient vectors are 2-D of
shape (L, 1), so numpy broadcasting aligns L with the channel axis and
stretches along the bin (and polarization) axes.  `bcastColOp` is that
broadcast: it applies `op` cell-wise between a (npol, nchan, nbin) array
and a length-L column reshaped to (L, 1), succeeding exactly when numpy
would (`L = nchan`, or `L = 1`, or `nchan = 1`). -/

/-- numpy broadcast of `a op col.reshape(-1, 1)` for a 3-D `a`;
`none` when the shapes are incompatible (numpy raises `ValueError`). -/
def bcastColOp (op : ℚ → ℚ → ℚ) (a : List (List (List ℚ))) (col : List ℚ) :
    Option (List (List (List ℚ))) :=
  let nchan := ((a.headD []).length)
  let L := col.length
  if L = nchan then
    some (a.map fun plane => (plane.zip col).map fun rc => rc.1.map (op · rc.2))
  else if L = 1 then
    some (a.map fun plane => plane.map fun row => row.map (op · (col.headD 0)))
  else if nchan = 1 then
    some (a.map fun plane => col.map fun s => (plane.headD []).map (op · s))
  else
    none

/-- Failure modes of `read_data_row`: reading past the end raises
`EOFError`; a negative index below `-nrow` raises numpy's `IndexError`;
incompatible coefficient shapes raise a broadcast `ValueError`. -/
inductive ReadError where
  | eof
  | indexError
  | broadcastError
  deriving DecidableEq, Repr

/-- The scalar subtracted from the raw data: the `ZERO_OFF` card when it is
numeric, else 0 (`float(zero_off)` raising makes the code fall back to 0). -/
def zeroOffScalar : ZeroOffVal → ℚ
  | .num q => q
  | _ => 0

/-- `SubintHDU.read_data_row(index, weighted)`.  The bound check rejects
only `index >= nrow`; the subsequent `self.data[index]` then follows
Python/numpy indexing, so negative indices count from the end of the
table's actual rows. -/
def read_data_row (h : SubintHDUModel) (index : Int) (weighted : Bool) :
    Except ReadError (List (List (List ℚ))) :=
  if (h.nrow : Int) ≤ index then .error .eof
  else
    match pyGet h.data.DATA index, pyGet h.data.DAT_SCL index,
          pyGet h.data.DAT_OFFS index with
    | some raw, some scl, some offs =>
        let z := zeroOffScalar h.header.ZERO_OFF
        match bcastColOp (fun r s => (r - z) * s) raw scl with
        | none => .error .broadcastError
        | some scaled =>
            match bcastColOp (· + ·) scaled offs with
            | none => .error .broadcastError
            | some result =>
                match weighted, h.data.DAT_WTS with
                | true, some wcol =>
                    match pyGet wcol index with
                    | none => .error .indexError
                    | some wrow =>
                        match bcastColOp (· * ·) result wrow with
                        | none => .error .broadcastError
                        | some wres => .ok wres
                | _, _ => .ok result
    | _, _, _ => .error .indexError

/-! ## Stream-combination engine (`combining.py`)

A numpy sample block is modelled as `Arr α`: a list of time rows (axis 0),
each row the row-major flattening of one sample, together with the shape
of the non-time axes.  Row-major flattening makes concatenation along
axis 1 (the leading sample axis) literally row-wise list append, provided
the trailing axes agree — exactly numpy's precondition. -/

structure Arr (α : Type) where
  rows : List (List α)
  sshape : List ℕ
  deriving DecidableEq, Repr

/-- A combining task, as invoked by `CombineStreamsBase`: the same Python
callable is applied both to sample blocks (rational entries) and to
broadcast metadata blocks (entries that may be Python `None`, hence
`Option ℚ`).  A `none` result models the callable raising. -/
structure TaskModel where
  runQ : List (Arr ℚ) → Option (Arr ℚ)
  runO : List (Arr (Option ℚ)) → Option (Arr (Option ℚ))

/-- A per-channel metadata attribute value on an input stream: a plain
array, or an astropy quantity carrying a unit.  Values are modelled
already broadcast to the stream's (flattened) sample shape. -/
inductive AttrVal where
  | plain (xs : List ℚ)
  | quantity (xs : List ℚ) (unit : String)
  deriving DecidableEq, Repr

/-- An input stream as consumed by `CombineStreamsBase`: the attributes the
constructor checks, the data rows (axis 0, flattened samples), and the
three optional metadata attributes (`getattr(ih, attr, None)`). -/
structure StreamModel where
  sample_rate : ℚ
  start_time : ℚ
  dtype : ℕ
  sshape : List ℕ
  rows : List (List ℚ)
  frequency : Option AttrVal
  sideband : Option AttrVal
  polarization : Option AttrVal
  deriving DecidableEq, Repr

/-- Axis-0 length (`ih.shape[0]`) of an input stream. -/
def StreamModel.len0 (ih : StreamModel) : ℕ := ih.rows.length

/-- Failure modes of `CombineStreamsBase.__init__`, named after the spec's
error taxonomy.  `configuration`: empty/non-indexable group;
`consistency`: one of the four stream-agreement asserts, tagged with the
offending attribute; `sampleAxis`: the `ValueError` for a task that alters
axis 0; `incompatibleShape`: the probe raised; `attrCombination`: the task
raised while combining the named attribute; `stripError`: the
unit-stripping comprehension raised before reaching the wrapped task call. -/
inductive CombineError where
  | configuration
  | consistency (attr : String)
  | incompatibleShape
  | sampleAxis
  | attrCombination (attr : String)
  | stripError
  | resultEmpty
  deriving DecidableEq, Repr

/-- The consistency asserts of `CombineStreamsBase.__init__`, run over
`ihs[1:]` in order; the first failing asserts is reported. -/
def checkConsistency (ih0 : StreamModel) : List StreamModel → Option CombineError
  | [] => none
  | ih :: rest =>
      if ih.sample_rate ≠ ih0.sample_rate then some (.consistency "sample_rate")
      else if ih.dtype ≠ ih0.dtype then some (.consistency "dtype")
      else if ih.start_time ≠ ih0.start_time then some (.consistency "start_time")
      else if ih.len0 ≠ ih0.len0 then some (.consistency "shape[0]")
      else checkConsistency ih0 rest

/-- The synthetic probe blocks
`[np.empty((7,) + ih.sample_shape, ih.dtype) for ih in ihs]`
(`np.empty` contents are unspecified; zeros here). -/
def mkFakes (ihs : List StreamModel) : List (Arr ℚ) :=
  ihs.map fun ih => ⟨List.replicate 7 (List.replicate ih.sshape.prod 0), ih.sshape⟩

/-- `getattr(value0, 'unit', None)`. -/
def unitOf : Option AttrVal → Option String
  | some (.quantity _ u) => some u
  | _ => none

/-- `value.to_value(unit)`: succeeds only for a quantity in the same unit
(a `None` or plain array raises `AttributeError`; astropy would rescale a
convertible different unit, a case collapsed to failure here since the
engine never introduces unit conversions itself). -/
def toValue (u : String) : Option AttrVal → Option (List ℚ)
  | some (.quantity xs u2) => if u2 = u then some xs else none
  | _ => none

/-- `np.broadcast_to(value, (1,) + ih.sample_shape)` in the no-unit path:
Python `None` broadcasts to an object array of `None` (never to a numeric
default); arrays keep their values. -/
def broadcastAttr (v : Option AttrVal) (ih : StreamModel) : Arr (Option ℚ) :=
  match v with
  | none => ⟨[List.replicate ih.sshape.prod none], ih.sshape⟩
  | some (.plain xs) => ⟨[xs.map some], ih.sshape⟩
  | some (.quantity xs _) => ⟨[xs.map some], ih.sshape⟩

/-- The combined value of one metadata attribute: the first row of the task
output (entries may be `None`), with the first stream's unit reattached
when there was one. -/
structure CombinedAttr where
  vals : List (Option ℚ)
  unit : Option String
  deriving DecidableEq, Repr

/-- `CombineStreamsBase._combine_attr`: all-`None` gives `None`; otherwise
the values (unit-stripped first when the first value carries a unit) are
broadcast to one-frame blocks, combined with the same task as the samples,
and the task output's row 0 is the combined attribute.  A task failure is
wrapped naming the attribute; a failure of the unit-stripping step happens
before that try block and is not wrapped. -/
def combineAttr (ihs : List StreamModel) (task : TaskModel)
    (A : StreamModel → Option AttrVal) (attrName : String) :
    Except CombineError (Option CombinedAttr) :=
  let values := ihs.map A
  if values.all (· = none) then .ok none
  else
    match unitOf (values.headD none) with
    | some u =>
        match values.mapM (toValue u) with
        | none => .error .stripError
        | some stripped =>
            match task.runO (List.zipWith
                (fun xs ih => (⟨[xs.map some], ih.sshape⟩ : Arr (Option ℚ)))
                stripped ihs) with
            | none => .error (.attrCombination attrName)
            | some res =>
                match res.rows.head? with
                | none => .error .resultEmpty
                | some r0 => .ok (some ⟨r0, some u⟩)
    | none =>
        match task.runO (List.zipWith broadcastAttr values ihs) with
        | none => .error (.attrCombination attrName)
        | some res =>
            match res.rows.head? with
            | none => .error .resultEmpty
            | some r0 => .ok (some ⟨r0, none⟩)

/-- The combined stream resulting from `CombineStreamsBase.__init__`:
`shape = (ih0.shape[0],) + a.shape[1:]` and the three recombined
attributes. -/
structure CombinedModel where
  shape0 : ℕ
  sshape : List ℕ
  frequency : Option CombinedAttr
  sideband : Option CombinedAttr
  polarization : Option CombinedAttr
  deriving DecidableEq, Repr

/-- `CombineStreamsBase.__init__`: reject an empty group; run the four
consistency asserts over `ihs[1:]`; probe the task on 7-row synthetic
blocks, wrapping a probe failure; reject a probe output whose axis-0
length is not 7; then combine the three metadata attributes and expose
the combined shape. -/
def initCombine (ihs : List StreamModel) (task : TaskModel) :
    Except CombineError CombinedModel :=
  match ihs with
  | [] => .error .configuration
  | ih0 :: rest =>
    match checkConsistency ih0 rest with
    | some e => .error e
    | none =>
      match task.runQ (mkFakes (ih0 :: rest)) with
      | none => .error .incompatibleShape
      | some a =>
        if a.rows.length ≠ 7 then .error .sampleAxis
        else
          match combineAttr (ih0 :: rest) task (·.frequency) "frequency" with
          | .error e => .error e
          | .ok f =>
            match combineAttr (ih0 :: rest) task (·.sideband) "sideband" with
            | .error e => .error e
            | .ok sb =>
              match combineAttr (ih0 :: rest) task (·.polarization) "polarization" with
              | .error e => .error e
              | .ok p =>
                .ok { shape0 := ih0.len0, sshape := a.sshape,
                      frequency := f, sideband := sb, polarization := p }

/-- Row-wise concatenation of several blocks (the data part of
`np.concatenate(..., axis=1)` on row-major-flattened rows). -/
def joinRows : List (List (List α)) → List (List α)
  | [] => []
  | [r] => r
  | r :: rs => List.zipWith (fun x y => x ++ y) r (joinRows rs)

/-- `np.concatenate(data, axis=1)`: needs at least one block, at least one
non-time axis, and agreement of every dimension except axis 1; the output
shape sums the axis-1 extents.  (`Concatenate.task` may pass a previously
allocated output buffer via `out=`; that reuse changes no values.) -/
def npConcatAx1 (arrs : List (Arr α)) : Option (Arr α) :=
  match arrs with
  | [] => none
  | a0 :: rest =>
    if a0.sshape.length = 0 then none
    else if rest.all fun a =>
        a.rows.length == a0.rows.length &&
        a.sshape.length == a0.sshape.length &&
        a.sshape.tail == a0.sshape.tail then
      some ⟨joinRows ((a0 :: rest).map Arr.rows),
            ((a0 :: rest).map fun a => a.sshape.headD 0).sum :: a0.sshape.tail⟩
    else none

/-- The task of the `Concatenate` subclass (default `axis=1`), applied
uniformly to sample and metadata blocks. -/
def concatTask : TaskModel := ⟨npConcatAx1, npConcatAx1⟩

/-- `CombineStreamsBase._read_frame`: seek every member to
`frame_index * samples_per_frame`, read that many samples, and pass the
ordered blocks through the task. -/
def readFrame (ihs : List StreamModel) (task : TaskModel) (spf : ℕ) (i : ℕ) :
    Option (Arr ℚ) :=
  task.runQ (ihs.map fun ih => ⟨(ih.rows.drop (i * spf)).take spf, ih.sshape⟩)

/-! ## File opening (`core.open` / `core.get_readers`) and structural
verification (`PSRSubintHDU.verify`) -/

/-- Python `str.upper()` (ASCII case mapping on the character list). -/
def strUpper (s : String) : String := ⟨s.data.map Char.toUpper⟩

/-- Python `str.strip()`: leading and trailing whitespace removed. -/
def strTrim (s : String) : String :=
  ⟨((s.data.dropWhile (·.isWhitespace)).reverse.dropWhile (·.isWhitespace)).reverse⟩

/-- `np.isclose(a, b, atol=1e-1)` with numpy's default `rtol=1e-5`:
`|a - b| <= atol + rtol * |b|`. -/
def npIsClose (a b : ℚ) : Bool := |a - b| ≤ 1/10 + |b|/100000

/-- Shape check of the 4-D `DATA` cube against
`(nrow,) + (nbin, nchan, npol)[::-1]` (numpy arrays are rectangular, so a
nested-list model checks every level). -/
def shapeOk4 (d : List (List (List (List ℚ)))) (n0 n1 n2 n3 : ℕ) : Bool :=
  d.length == n0 && d.all fun p =>
    p.length == n1 && p.all fun c =>
      c.length == n2 && c.all fun b => b.length == n3

/-- The asserts of `PSRSubintHDU.verify` (including the inherited
`SubintHDU.verify`): extension name literally `SUBINT`; folding mode;
`NBIN > 1`; all `DAT_FREQ` rows identical when that column exists;
`TSUBINT` uniform within `np.isclose(..., atol=1e-1)`; raw data shape
`(nrow, npol, nchan, nbin)`.  (An empty `TSUBINT` column would make
`tsubint[0]` raise; tables are non-empty in every claim using this.) -/
def verifyPSR (h : SubintHDUModel) : Bool :=
  strTrim h.header.EXTNAME == "SUBINT" &&
  (strUpper h.primary.OBS_MODE == "PSR") &&
  decide (1 < h.nbin) &&
  (match h.data.DAT_FREQ with
   | some col => col.all (· == col.headD [])
   | none => true) &&
  h.data.TSUBINT.all (fun t => npIsClose (h.data.TSUBINT.headD 0) t) &&
  shapeOk4 h.data.DATA h.nrow h.npol h.nchan h.nbin

/-- Failure modes of opening: `ValueError` (unknown observing mode, wrong
primary-HDU count, unknown open mode), a failed verification assert, and
the `RuntimeError` for a SUBINT-reader count other than one. -/
inductive OpenError where
  | valueError (msg : String)
  | assertionError (msg : String)
  | runtimeError
  deriving DecidableEq, Repr

/-- An unwrapped SUBINT extension as it sits in the FITS file. -/
structure SubintRawHDU where
  header : SubintHeaderModel
  data : SubintData
  deriving DecidableEq, Repr

/-- `SubintHDU(hdu, primary_hdu)`: `__new__` dispatches on the primary's
`OBS_MODE` through `subint_map = {PSR: PSRSubintHDU}` (unknown mode is a
`ValueError`), then `__init__` verifies. -/
def mkSubintHDU (primary : PrimaryHDUModel) (raw : SubintRawHDU) :
    Except OpenError SubintHDUModel :=
  if primary.OBS_MODE ≠ "PSR" then
    .error (.valueError "is not a valid mode")
  else
    let hdu : SubintHDUModel := ⟨raw.header, raw.data, primary⟩
    if verifyPSR hdu then .ok hdu
    else .error (.assertionError "SUBINT HDU verification failed")

/-- An HDU of the opened FITS file, as bucketed by `get_readers`: names
outside `HDU_map = {PRIMARY, SUBINT}` are logged and skipped. -/
inductive RawHDU where
  | primary (p : PrimaryHDUModel)
  | subint (s : SubintRawHDU)
  | other (extname : String)
  deriving DecidableEq, Repr

/-- Wrap a list of extensions one by one, stopping at the first failure
(the Python loop appending to `psrfits_hdus`). -/
def mapExcept (f : α → Except ε β) : List α → Except ε (List β)
  | [] => .ok []
  | x :: xs =>
      match f x with
      | .error e => .error e
      | .ok y =>
          match mapExcept f xs with
          | .error e => .error e
          | .ok ys => .ok (y :: ys)

/-- `core.get_readers`: bucket the HDUs by recognized name, require exactly
one primary HDU, wrap it (verifying), then wrap every SUBINT extension
against it.  Each resulting reader exposes the wrapped HDU. -/
def get_readers (hdus : List RawHDU) : Except OpenError (List SubintHDUModel) :=
  let primaries := hdus.filterMap fun h =>
    match h with | .primary p => some p | _ => none
  let subints := hdus.filterMap fun h =>
    match h with | .subint s => some s | _ => none
  match primaries with
  | [p] =>
      if p.verify then mapExcept (mkSubintHDU p) subints
      else .error (.assertionError "primary HDU verification failed")
  | _ => .error (.valueError "does not have a header HDU or has more than one")

/-- `core.open(filename, mode)` on the HDU list of the file: only mode `r`
is supported; the reader list must contain exactly one SUBINT reader,
otherwise `RuntimeError`. -/
def psrfitsOpen (hdus : List RawHDU) (mode : String) :
    Except OpenError SubintHDUModel :=
  if mode = "r" then
    match get_readers hdus with
    | .error e => .error e
    | .ok readers =>
        match readers with
        | [r] => .ok r
        | _ => .error .runtimeError
  else .error (.valueError "Unknown mode")

/-! ## Helper notions for decode theorems -/

/-- Total list indexing: `(xs.get? n).getD d`. -/
def nth (xs : List α) (n : ℕ) (d : α) : α := (xs.get? n).getD d

/-- Cell (p, c, b) of a 3-D nested list, 0 outside. -/
def idx3 (a : List (List (List ℚ))) (p c b : ℕ) : ℚ :=
  nth (nth (nth a p []) c []) b 0

/-- A rectangular 3-D nested list of dimensions (P, C, B). -/
def dims3 (a : List (List (List ℚ))) (P C B : ℕ) : Prop :=
  a.length = P ∧ ∀ p ∈ a, p.length = C ∧ ∀ r ∈ p, r.length = B

instance (a : List (List (List ℚ))) (P C B : ℕ) : Decidable (dims3 a P C B) := by
  unfold dims3; infer_instance

/-- Well-formed SUBINT table in the broadcast-compatible layout: every
column has one entry per table row, the data cube matches the header
geometry, and the coefficient/weight vectors carry one entry per channel
(numpy's broadcast of the reshaped coefficient vector against the
(npol, nchan, nbin) data cell requires exactly this alignment). -/
def SubintHDUModel.wf (h : SubintHDUModel) : Prop :=
  h.data.DATA.length = h.nrow ∧
  h.data.DAT_SCL.length = h.nrow ∧
  h.data.DAT_OFFS.length = h.nrow ∧
  (∀ w ∈ h.data.DAT_WTS, w.length = h.nrow ∧ ∀ r ∈ w, r.length = h.nchan) ∧
  (∀ d ∈ h.data.DATA, dims3 d h.npol h.nchan h.nbin) ∧
  (∀ r ∈ h.data.DAT_SCL, r.length = h.nchan) ∧
  (∀ r ∈ h.data.DAT_OFFS, r.length = h.nchan)

instance (h : SubintHDUModel) : Decidable h.wf := by
  unfold SubintHDUModel.wf; infer_instance

/-! ## Spec-side definition and concrete fixtures used by the claims -/

/-- The claimed per-channel frequency formula, following the spec text for
channel k (1-indexed): `center + (k - ceil((n_channels + 1) / 2)) * (bandwidth
/ n_channels)`, with a true (rational) ceiling.  Compared against the
code-derived `PrimaryHDUModel.frequency`. -/
def specChannelFreqC3 (n_chan : ℕ) (c b : ℚ) (k : ℕ) : ℚ :=
  c + ((k : ℚ) - (⌈((n_chan : ℚ) + 1) / 2⌉ : ℤ)) * (b / n_chan)

/-- A 1-row, 1-pol, 2-channel, 2-bin SUBINT table with `ZERO_OFF = 3`,
scales (2, 5), offsets (7, 11) and weights (1, 0). -/
def c1Hdu : SubintHDUModel :=
  ⟨⟨"SUBINT", 1, 2, 1, 2, .num 3⟩,
   ⟨[[[[10, 20], [30, 40]]]], [[2, 5]], [[7, 11]], some [[1, 0]], none, [1], none⟩,
   ⟨true, "PSRFITS", 0, 0, 0, none, none, none, "PSR"⟩⟩

/-- Like `c1Hdu` but without a weight column and with `ZERO_OFF` absent. -/
def c9Hdu : SubintHDUModel :=
  ⟨⟨"SUBINT", 1, 2, 1, 2, .absent⟩,
   ⟨[[[[10, 20], [30, 40]]]], [[2, 5]], [[7, 11]], none, none, [1], none⟩,
   ⟨true, "PSRFITS", 0, 0, 0, none, none, none, "PSR"⟩⟩

/-- A 2-row table (nrow = 2) for the negative-index claim, with a
non-numeric `ZERO_OFF` card. -/
def c10Hdu : SubintHDUModel :=
  ⟨⟨"SUBINT", 2, 1, 1, 2, .nonNumeric⟩,
   ⟨[[[[1, 2]]], [[[3, 4]]]], [[10], [100]], [[0], [0]], none, none, [1, 1], none⟩,
   ⟨true, "PSRFITS", 0, 0, 0, none, none, none, "PSR"⟩⟩

/-- A table whose `OFFS_SUB` column exists (first-row offset 5 s) and whose
sub-integrations last 2 s each. -/
def c7HduA : SubintHDUModel :=
  ⟨⟨"SUBINT", 1, 1, 1, 2, .absent⟩,
   ⟨[[[[0, 0]]]], [[1]], [[0]], none, none, [2], some [5]⟩,
   ⟨true, "PSRFITS", 50000, 3, 1/2, none, none, none, "PSR"⟩⟩

/-- A table without an `OFFS_SUB` column. -/
def c7HduB : SubintHDUModel :=
  ⟨⟨"SUBINT", 1, 1, 1, 2, .absent⟩,
   ⟨[[[[0, 0]]]], [[1]], [[0]], none, none, [2], none⟩,
   ⟨true, "PSRFITS", 50000, 3, 1/2, none, none, none, "PSR"⟩⟩

/-- Streams with 4 time samples and sample shapes (2,) and (3,), no
metadata. -/
def s2A : StreamModel :=
  ⟨1, 0, 0, [2], [[1, 2], [3, 4], [5, 6], [7, 8]], none, none, none⟩

/-- Companion of `s2A` with sample shape (3,). -/
def s2B : StreamModel :=
  ⟨1, 0, 0, [3], [[9, 9, 9], [8, 8, 8], [7, 7, 7], [6, 6, 6]], none, none, none⟩

/-- A task that drops time samples: it keeps only the first 3 rows of the
first block, so its probe output has axis-0 length 3 instead of 7. -/
def c2BadTask : TaskModel :=
  ⟨fun arrs => some ⟨(arrs.headD ⟨[], []⟩).rows.take 3, (arrs.headD ⟨[], []⟩).sshape⟩,
   fun arrs => some ⟨(arrs.headD ⟨[], []⟩).rows.take 3, (arrs.headD ⟨[], []⟩).sshape⟩⟩

/-- An arbitrary combined-stream value (target of a non-equality). -/
def c2Dummy : CombinedModel := ⟨0, [], none, none, none⟩

/-- Stream differing from `s4A` only in dtype. -/
def s4A : StreamModel := ⟨1, 0, 0, [2], [[0, 0]], none, none, none⟩

/-- Stream differing from `s4A` only in dtype. -/
def s4B : StreamModel := ⟨1, 0, 1, [2], [[0, 0]], none, none, none⟩

/-- Stream whose frequency attribute is a unit-carrying quantity. -/
def s5U : StreamModel :=
  ⟨1, 0, 0, [2], [[0, 0]], some (.quantity [1, 2] "MHz"), none, none⟩

/-- Stream with no frequency attribute, sample shape (2,). -/
def s5N : StreamModel := ⟨1, 0, 0, [2], [[0, 0]], none, none, none⟩

/-- Stream whose frequency attribute is a plain (unitless) array. -/
def s5P : StreamModel := ⟨1, 0, 0, [2], [[0, 0]], some (.plain [3, 4]), none, none⟩

/-- Stream with no frequency attribute, sample shape (1,). -/
def s5M : StreamModel := ⟨1, 0, 0, [1], [[0]], none, none, none⟩

/-- A primary HDU that passes `PSRFITSPrimaryHDU.verify`, folding mode. -/
def c6P : PrimaryHDUModel := ⟨true, "PSRFITS", 0, 0, 0, none, none, none, "PSR"⟩

/-- A raw SUBINT extension (1 row, 1 pol, 1 channel, 2 bins) that passes
`PSRSubintHDU.verify` against `c6P`. -/
def c6S : SubintRawHDU :=
  ⟨⟨"SUBINT", 1, 1, 1, 2, .absent⟩,
   ⟨[[[[0, 0]]]], [[1]], [[0]], none, none, [1], none⟩⟩

/-- The wrapped SUBINT HDU produced by opening a file holding `c6P` and
one copy of `c6S`. -/
def c6Hdu : SubintHDUModel := ⟨c6S.header, c6S.data, c6P⟩

/-- 3-sample stream with sample shape (2,) for the concatenation
round trip. -/
def s8A : StreamModel :=
  ⟨1, 0, 0, [2], [[1, 2], [3, 4], [5, 6]], none, none, none⟩

/-- 3-sample stream with sample shape (1,) for the concatenation
round trip. -/
def s8B : StreamModel := ⟨1, 0, 0, [1], [[10], [20], [30]], none, none, none⟩

/-- On a rectangular (P, C, B) cube with a length-C column, the broadcast
takes its first branch, preserves the dimensions, and acts cell-wise with
the column entry of the channel axis. -/
theorem bcastColOp_dims (op : ℚ → ℚ → ℚ) (a : List (List (List ℚ))) (col : List ℚ)
    (P C B : ℕ) (hP : 0 < P) (ha : dims3 a P C B) (hcol : col.length = C) :
    ∃ r, bcastColOp op a col = some r ∧ dims3 r P C B ∧
      ∀ p c b, p < P → c < C → b < B →
        idx3 r p c b = op (idx3 a p c b) (nth col c 0) := by
  obtain ⟨hlen, hplanes⟩ := ha
  have hane : a ≠ [] := by
    intro hnil; rw [hnil] at hlen; simp at hlen; omega
  have hhead : (a.headD []).length = C := by
    match a, hane with
    | p :: rest, _ => exact (hplanes p (List.mem_cons_self p rest)).1
  have hbr : bcastColOp op a col
      = some (a.map fun plane => (plane.zip col).map fun rc => rc.1.map (op · rc.2)) := by
    simp only [bcastColOp]
    rw [if_pos (by rw [hcol, hhead])]
  refine ⟨_, hbr, ⟨by simpa using hlen, ?_⟩, ?_⟩
  · intro plane' hmem
    obtain ⟨plane, hpmem, rfl⟩ := List.mem_map.mp hmem
    obtain ⟨hplC, hrowsB⟩ := hplanes plane hpmem
    refine ⟨by rw [List.length_map, List.length_zip, hplC, hcol, min_self], ?_⟩
    intro row hrow
    obtain ⟨rc, hrc, rfl⟩ := List.mem_map.mp hrow
    have hm : rc.1 ∈ plane ∧ rc.2 ∈ col := List.of_mem_zip (by simpa using hrc)
    rw [List.length_map]
    exact hrowsB rc.1 hm.1
  · intro p c b hp hc hb
    have hpa : p < a.length := by omega
    have hplane : a.get? p = some (a.get ⟨p, hpa⟩) := List.get?_eq_get hpa
    obtain ⟨hplC, hrowsB⟩ := hplanes (a.get ⟨p, hpa⟩) (a.get_mem p hpa)
    have hcc : c < (a.get ⟨p, hpa⟩).length := by omega
    have hrowg : (a.get ⟨p, hpa⟩).get? c = some ((a.get ⟨p, hpa⟩).get ⟨c, hcc⟩) :=
      List.get?_eq_get hcc
    have hrB : ((a.get ⟨p, hpa⟩).get ⟨c, hcc⟩).length = B :=
      hrowsB _ ((a.get ⟨p, hpa⟩).get_mem c hcc)
    have hcs : c < col.length := by omega
    have hs : col.get? c = some (col.get ⟨c, hcs⟩) := List.get?_eq_get hcs
    have hbb : b < ((a.get ⟨p, hpa⟩).get ⟨c, hcc⟩).length := by omega
    have hx : ((a.get ⟨p, hpa⟩).get ⟨c, hcc⟩).get? b
        = some (((a.get ⟨p, hpa⟩).get ⟨c, hcc⟩).get ⟨b, hbb⟩) := List.get?_eq_get hbb
    have hzip : ((a.get ⟨p, hpa⟩).zip col).get? c
        = some ((a.get ⟨p, hpa⟩).get ⟨c, hcc⟩, col.get ⟨c, hcs⟩) :=
      (List.get?_zip_eq_some _ _ _ _).mpr ⟨hrowg, hs⟩
    simp only [List.get?_eq_getElem?, List.get_eq_getElem] at hplane hrowg hs hx hzip
    simp [idx3, nth, List.get?_eq_getElem?, List.getElem?_map, hplane, hzip, hrowg, hs, hx]

/-- Evaluation of `read_data_row` on a well-formed table at an in-range
non-negative index: it succeeds and each output cell is
`(raw - zero_off) * scale + offset`, times the channel weight when
weighting is requested and the weight column exists. -/
theorem read_data_row_ok (h : SubintHDUModel) (hwf : h.wf) (hP : 0 < h.npol)
    (i : Int) (h0 : 0 ≤ i) (h1 : i < (h.nrow : Int)) (w : Bool) :
    ∃ res, read_data_row h i w = .ok res ∧ dims3 res h.npol h.nchan h.nbin ∧
      ∀ p c b, p < h.npol → c < h.nchan → b < h.nbin →
        idx3 res p c b =
          ((idx3 (nth h.data.DATA i.toNat []) p c b - zeroOffScalar h.header.ZERO_OFF)
              * nth (nth h.data.DAT_SCL i.toNat []) c 0
            + nth (nth h.data.DAT_OFFS i.toNat []) c 0)
          * (match w, h.data.DAT_WTS with
              | true, some wcol => nth (nth wcol i.toNat []) c 0
              | _, _ => 1) := by
  obtain ⟨hD, hS, hO, hW, hDd, hSs, hOo⟩ := hwf
  have hnot : ¬ ((h.nrow : Int) ≤ i) := by omega
  have hDlt : i.toNat < h.data.DATA.length := by omega
  have hSlt : i.toNat < h.data.DAT_SCL.length := by omega
  have hOlt : i.toNat < h.data.DAT_OFFS.length := by omega
  have hgD : pyGet h.data.DATA i = some (h.data.DATA.get ⟨i.toNat, hDlt⟩) := by
    unfold pyGet; rw [if_pos h0, List.get?_eq_get hDlt]
  have hgS : pyGet h.data.DAT_SCL i = some (h.data.DAT_SCL.get ⟨i.toNat, hSlt⟩) := by
    unfold pyGet; rw [if_pos h0, List.get?_eq_get hSlt]
  have hgO : pyGet h.data.DAT_OFFS i = some (h.data.DAT_OFFS.get ⟨i.toNat, hOlt⟩) := by
    unfold pyGet; rw [if_pos h0, List.get?_eq_get hOlt]
  have hnthD : nth h.data.DATA i.toNat [] = h.data.DATA.get ⟨i.toNat, hDlt⟩ := by
    simp [nth, List.get?_eq_getElem?, List.getElem?_eq_getElem hDlt]
  have hnthS : nth h.data.DAT_SCL i.toNat [] = h.data.DAT_SCL.get ⟨i.toNat, hSlt⟩ := by
    simp [nth, List.get?_eq_getElem?, List.getElem?_eq_getElem hSlt]
  have hnthO : nth h.data.DAT_OFFS i.toNat [] = h.data.DAT_OFFS.get ⟨i.toNat, hOlt⟩ := by
    simp [nth, List.get?_eq_getElem?, List.getElem?_eq_getElem hOlt]
  have hraw := hDd _ (h.data.DATA.get_mem i.toNat hDlt)
  have hscl : (h.data.DAT_SCL.get ⟨i.toNat, hSlt⟩).length = h.nchan :=
    hSs _ (h.data.DAT_SCL.get_mem i.toNat hSlt)
  have hoffs : (h.data.DAT_OFFS.get ⟨i.toNat, hOlt⟩).length = h.nchan :=
    hOo _ (h.data.DAT_OFFS.get_mem i.toNat hOlt)
  obtain ⟨scaled, hb1, hd1, hc1⟩ :=
    bcastColOp_dims (fun r s => (r - zeroOffScalar h.header.ZERO_OFF) * s)
      (h.data.DATA.get ⟨i.toNat, hDlt⟩) (h.data.DAT_SCL.get ⟨i.toNat, hSlt⟩)
      h.npol h.nchan h.nbin hP hraw hscl
  obtain ⟨result, hb2, hd2, hc2⟩ :=
    bcastColOp_dims (· + ·) scaled (h.data.DAT_OFFS.get ⟨i.toNat, hOlt⟩)
      h.npol h.nchan h.nbin hP hd1 hoffs
  cases w with
  | false =>
      refine ⟨result, ?_, hd2, ?_⟩
      · cases hDW : h.data.DAT_WTS <;>
          simp only [read_data_row, if_neg hnot, hgD, hgS, hgO, hb1, hb2, hDW]
      · intro p c b hp hc hb
        rw [hc2 p c b hp hc hb, hc1 p c b hp hc hb, hnthD, hnthS, hnthO]
        cases h.data.DAT_WTS <;> ring
  | true =>
      cases hDW : h.data.DAT_WTS with
      | none =>
          refine ⟨result, ?_, hd2, ?_⟩
          · simp only [read_data_row, if_neg hnot, hgD, hgS, hgO, hb1, hb2, hDW]
          · intro p c b hp hc hb
            rw [hc2 p c b hp hc hb, hc1 p c b hp hc hb, hnthD, hnthS, hnthO]
            ring
      | some wcol =>
          obtain ⟨hwlen, hwrows⟩ := hW wcol (by simp [hDW])
          have hWlt : i.toNat < wcol.length := by omega
          have hgW : pyGet wcol i = some (wcol.get ⟨i.toNat, hWlt⟩) := by
            unfold pyGet; rw [if_pos h0, List.get?_eq_get hWlt]
          have hnthW : nth wcol i.toNat [] = wcol.get ⟨i.toNat, hWlt⟩ := by
            simp [nth, List.get?_eq_getElem?, List.getElem?_eq_getElem hWlt]
          have hwrowlen : (wcol.get ⟨i.toNat, hWlt⟩).length = h.nchan :=
            hwrows _ (wcol.get_mem i.toNat hWlt)
          obtain ⟨wres, hb3, hd3, hc3⟩ :=
            bcastColOp_dims (· * ·) result (wcol.get ⟨i.toNat, hWlt⟩)
              h.npol h.nchan h.nbin hP hd2 hwrowlen
          refine ⟨wres, ?_, hd3, ?_⟩
          · simp only [read_data_row, if_neg hnot, hgD, hgS, hgO, hb1, hb2, hDW, hgW, hb3]
          · intro p c b hp hc hb
            rw [hc3 p c b hp hc hb, hc2 p c b hp hc hb, hc1 p c b hp hc hb,
                hnthD, hnthS, hnthO]
            simp [hnthW]

/-! ## Claims about the per-row decode -/

/-- C1: for every record row (well-formed, broadcast-compatible layout),
`read_data_row` without weighting returns exactly `(raw - z) * scale +
offset` cell-wise, where `z` is the `ZERO_OFF` card when numeric and 0
when the card is absent or non-numeric; with weighting requested and a
`DAT_WTS` column present, the result is additionally multiplied by the
per-row weight of the cell's channel. -/
theorem C1_read_data_row_formula (h : SubintHDUModel) (hwf : h.wf) (hP : 0 < h.npol)
    (i : Int) (h0 : 0 ≤ i) (h1 : i < (h.nrow : Int)) :
    (∃ res, read_data_row h i false = .ok res ∧
        ∀ p c b, p < h.npol → c < h.nchan → b < h.nbin →
          idx3 res p c b =
            (idx3 (nth h.data.DATA i.toNat []) p c b - zeroOffScalar h.header.ZERO_OFF)
              * nth (nth h.data.DAT_SCL i.toNat []) c 0
              + nth (nth h.data.DAT_OFFS i.toNat []) c 0)
    ∧ (∀ wcol, h.data.DAT_WTS = some wcol →
        ∃ res, read_data_row h i true = .ok res ∧
          ∀ p c b, p < h.npol → c < h.nchan → b < h.nbin →
            idx3 res p c b =
              ((idx3 (nth h.data.DATA i.toNat []) p c b - zeroOffScalar h.header.ZERO_OFF)
                  * nth (nth h.data.DAT_SCL i.toNat []) c 0
                + nth (nth h.data.DAT_OFFS i.toNat []) c 0)
              * nth (nth wcol i.toNat []) c 0)
    ∧ zeroOffScalar .absent = 0 ∧ zeroOffScalar .nonNumeric = 0 := by
  refine ⟨?_, ?_, rfl, rfl⟩
  · obtain ⟨res, hok, -, hcell⟩ := read_data_row_ok h hwf hP i h0 h1 false
    refine ⟨res, hok, fun p c b hp hc hb => ?_⟩
    rw [hcell p c b hp hc hb]
    cases h.data.DAT_WTS <;> ring
  · intro wcol hwcol
    obtain ⟨res, hok, -, hcell⟩ := read_data_row_ok h hwf hP i h0 h1 true
    refine ⟨res, hok, fun p c b hp hc hb => ?_⟩
    rw [hcell p c b hp hc hb]
    simp only [hwcol]

/-- C1 witness: on the concrete table `c1Hdu` (raw `(10, 20; 30, 40)`,
`z = 3`, scales `(2, 5)`, offsets `(7, 11)`, weights `(1, 0)`), the
unweighted decode is `((21, 41), (146, 196))` and the theorem's cell
formula reproduces cell (0, 1, 0) = 146; the weighted decode zeroes the
second channel. -/
theorem C1_read_data_row_formula_witness :
    read_data_row c1Hdu 0 false = .ok [[[21, 41], [146, 196]]] ∧
    read_data_row c1Hdu 0 true = .ok [[[21, 41], [0, 0]]] ∧
    idx3 [[[21, 41], [146, 196]]] 0 1 0 =
      (idx3 (nth c1Hdu.data.DATA 0 []) 0 1 0 - zeroOffScalar c1Hdu.header.ZERO_OFF)
        * nth (nth c1Hdu.data.DAT_SCL 0 []) 1 0
        + nth (nth c1Hdu.data.DAT_OFFS 0 []) 1 0 := by
  have H := C1_read_data_row_formula c1Hdu (by decide) (by decide) 0 (by decide) (by decide)
  obtain ⟨⟨res, hok, hcell⟩, -, -, -⟩ := H
  have hev : read_data_row c1Hdu 0 false = .ok [[[21, 41], [146, 196]]] := by
    norm_num [read_data_row, pyGet, bcastColOp, zeroOffScalar, List.zip, c1Hdu,
      SubintHDUModel.nrow]
  have hres : res = [[[21, 41], [146, 196]]] := by
    rw [hev] at hok; exact (Except.ok.inj hok).symm
  refine ⟨hev, ?_, ?_⟩
  · norm_num [read_data_row, pyGet, bcastColOp, zeroOffScalar, List.zip, c1Hdu,
      SubintHDUModel.nrow]
  · rw [← hres]
    exact hcell 0 1 0 (by decide) (by decide) (by decide)

/-- C9: reading row `nrow` fails with the end-of-stream error, and reading
row `nrow - 1` succeeds (well-formed non-empty table). -/
theorem C9_row_bounds (h : SubintHDUModel) (hwf : h.wf) (hP : 0 < h.npol)
    (hn : 0 < h.nrow) (w : Bool) :
    read_data_row h (h.nrow : Int) w = .error .eof ∧
    ∃ v, read_data_row h ((h.nrow : Int) - 1) w = .ok v := by
  constructor
  · unfold read_data_row
    rw [if_pos le_rfl]
  · obtain ⟨v, hok, -, -⟩ :=
      read_data_row_ok h hwf hP ((h.nrow : Int) - 1) (by omega) (by omega) w
    exact ⟨v, hok⟩

/-- C9 witness: on the 1-row table `c9Hdu`, reading row 1 raises the
end-of-stream error and reading row 0 yields the decoded data. -/
theorem C9_row_bounds_witness :
    read_data_row c9Hdu (c9Hdu.nrow : Int) false = .error .eof ∧
    read_data_row c9Hdu ((c9Hdu.nrow : Int) - 1) false = .ok [[[27, 47], [161, 211]]] := by
  have H := C9_row_bounds c9Hdu (by decide) (by decide) (by decide) false
  refine ⟨H.1, ?_⟩
  norm_num [read_data_row, pyGet, bcastColOp, zeroOffScalar, List.zip, c9Hdu,
    SubintHDUModel.nrow]

/-- Negative Python indices address the same element as the corresponding
index from the end, for a list of the stated length. -/
theorem pyGet_neg (xs : List α) (n : ℕ) (hxs : xs.length = n) (i : Int)
    (hlo : -(n : Int) ≤ i) (hhi : i < 0) :
    pyGet xs i = pyGet xs ((n : Int) + i) := by
  simp only [pyGet, hxs]
  rw [if_neg (by omega), if_pos (by omega), if_pos (by omega)]
  congr 1
  omega

/-- C10: for `-nrow <= i < 0`, `read_data_row i` does not hit the
end-of-stream check but decodes row `nrow + i` (Python negative indexing),
because the bound check only rejects `index >= nrow`. -/
theorem C10_negative_index (h : SubintHDUModel) (hwf : h.wf) (hP : 0 < h.npol)
    (i : Int) (hlo : -(h.nrow : Int) ≤ i) (hhi : i < 0) (w : Bool) :
    read_data_row h i w = read_data_row h ((h.nrow : Int) + i) w ∧
    ∃ v, read_data_row h i w = .ok v := by
  obtain ⟨hD, hS, hO, hW, hDd, hSs, hOo⟩ := hwf
  have heq : read_data_row h i w = read_data_row h ((h.nrow : Int) + i) w := by
    have e1 := pyGet_neg h.data.DATA h.nrow hD i hlo hhi
    have e2 := pyGet_neg h.data.DAT_SCL h.nrow hS i hlo hhi
    have e3 := pyGet_neg h.data.DAT_OFFS h.nrow hO i hlo hhi
    have hn1 : ¬ ((h.nrow : Int) ≤ i) := by omega
    have hn2 : ¬ ((h.nrow : Int) ≤ (h.nrow : Int) + i) := by omega
    cases w with
    | false =>
        cases hDW : h.data.DAT_WTS <;>
          simp only [read_data_row, if_neg hn1, if_neg hn2, e1, e2, e3, hDW]
    | true =>
        cases hDW : h.data.DAT_WTS with
        | none => simp only [read_data_row, if_neg hn1, if_neg hn2, e1, e2, e3, hDW]
        | some wcol =>
            have e4 := pyGet_neg wcol h.nrow (hW wcol (by simp [hDW])).1 i hlo hhi
            simp only [read_data_row, if_neg hn1, if_neg hn2, e1, e2, e3, hDW, e4]
  refine ⟨heq, ?_⟩
  rw [heq]
  obtain ⟨v, hok, -, -⟩ :=
    read_data_row_ok h ⟨hD, hS, hO, hW, hDd, hSs, hOo⟩ hP
      ((h.nrow : Int) + i) (by omega) (by omega) w
  exact ⟨v, hok⟩

/-- C10 witness: on the 2-row table `c10Hdu`, row index -1 decodes row 1
(scale 100) rather than raising. -/
theorem C10_negative_index_witness :
    read_data_row c10Hdu (-1) false = read_data_row c10Hdu ((c10Hdu.nrow : Int) + -1) false ∧
    read_data_row c10Hdu (-1) false = .ok [[[300, 400]]] := by
  have H := C10_negative_index c10Hdu (by decide) (by decide) (-1) (by decide) (by decide) false
  refine ⟨H.1, ?_⟩
  norm_num [read_data_row, pyGet, bcastColOp, zeroOffScalar, List.zip, c10Hdu,
    SubintHDUModel.nrow]

/-! ## Claims about start time and channel frequencies -/

/-- C7: with an `OFFS_SUB` column whose first entry is `T0`, the computed
start time is the primary epoch (integer MJD plus the two second-offset
cards) plus `T0` minus half a sample period (`samples_per_frame / 2 /
sample_rate`); without the column, it is exactly the primary epoch. -/
theorem C7_start_time (h : SubintHDUModel) (T0 : ℚ) (rest : List ℚ) :
    (h.data.OFFS_SUB = some (T0 :: rest) →
      h.start_time =
        (h.primary.STT_IMJD * 86400 + (h.primary.STT_SMJD + h.primary.STT_OFFS))
          + T0 - (h.samples_per_frame : ℚ) / 2 / h.sample_rate)
    ∧ (h.data.OFFS_SUB = none → h.start_time = h.primary.start_time) := by
  constructor
  · intro hcol
    simp only [SubintHDUModel.start_time, hcol, List.headD_cons,
      PrimaryHDUModel.start_time]
    ring
  · intro hnone
    simp only [SubintHDUModel.start_time, hnone]

/-- C7 witness: for `c7HduA` (epoch MJD 50000 + 3.5 s, `T0 = 5`,
2-second sub-integrations, so half a sample period is 1 s) the start time
is `50000 * 86400 + 3.5 + 5 - 1`; for `c7HduB` (no offset column) it is
the primary epoch itself. -/
theorem C7_start_time_witness :
    c7HduA.start_time = 50000 * 86400 + (3 + 1/2) + 5 - 1 ∧
    c7HduB.start_time = c7HduB.primary.start_time := by
  constructor
  · have H := (C7_start_time c7HduA 5 []).1 rfl
    rw [H]
    norm_num [c7HduA, SubintHDUModel.sample_rate, SubintHDUModel.samples_per_frame,
      meanQ]
  · exact (C7_start_time c7HduB 0 []).2 rfl

/-- C3 counterexample: for 2 channels, center 0 MHz and bandwidth 2 MHz,
the code's channel-1 frequency is 0, while the claimed formula with the
ceiling of `(n_channels + 1) / 2` predicts -1: the code uses Python floor
division `(n_chan + 1) // 2`, which differs from the ceiling for every
even channel count. -/
theorem C3_frequency_counterexample :
    PrimaryHDUModel.frequency
        ⟨true, "PSRFITS", 0, 0, 0, some 2, some 0, some 2, "PSR"⟩ = some [0, 1] ∧
    specChannelFreqC3 2 0 2 1 = -1 ∧ ((0 : ℚ) ≠ -1) := by
  refine ⟨?_, ?_, by norm_num⟩
  · norm_num [PrimaryHDUModel.frequency, List.range_succ]
  · norm_num [specChannelFreqC3]
    rw [show ⌈(3 : ℚ) / 2⌉ = 2 from by norm_num [Int.ceil_eq_iff]]
    norm_num

/-- C3 amended: channel k (1-indexed, `1 <= k <= n_channels`) has center
frequency `c + (k - (n_channels + 1) // 2) * (b / n_channels)`, with `//`
the integer floor division (equivalently the floor, not the ceiling, of
`(n_channels + 1) / 2`). -/
theorem C3_frequency_amended (h : PrimaryHDUModel) (n_chan : ℕ) (c b : ℚ)
    (hn : h.OBSNCHAN = some n_chan) (hc : h.OBSFREQ = some c) (hb : h.OBSBW = some b)
    (k : ℕ) (hk1 : 1 ≤ k) (hk2 : k ≤ n_chan) :
    ∃ freqs, h.frequency = some freqs ∧
      freqs.get? (k - 1) =
        some (c + ((k : ℚ) - (((n_chan + 1) / 2 : ℕ) : ℚ)) * (b / n_chan)) := by
  refine ⟨(List.range n_chan).map fun i =>
      c + (((i + 1 : ℕ) : ℚ) - (((n_chan + 1) / 2 : ℕ) : ℚ)) * (b / (n_chan : ℚ)),
    by simp only [PrimaryHDUModel.frequency, hn, hc, hb], ?_⟩
  rw [List.get?_eq_getElem?, List.getElem?_map, List.getElem?_range (show k - 1 < n_chan by omega)]
  simp only [Option.map_some']
  congr 2
  have : k - 1 + 1 = k := by omega
  rw [this]

/-- C3 witness (for the amended claim): 2 channels, center 0, bandwidth 2;
channel 1 sits at `0 + (1 - 1) * 1 = 0`. -/
theorem C3_frequency_amended_witness :
    (PrimaryHDUModel.frequency
        ⟨true, "PSRFITS", 0, 0, 0, some 2, some 0, some 2, "PSR"⟩).bind
      (fun freqs => freqs.get? 0) =
    some ((0 : ℚ) + ((1 : ℚ) - ((((2 : ℕ) + 1) / 2 : ℕ) : ℚ)) * ((2 : ℚ) / (2 : ℕ))) := by
  obtain ⟨freqs, hf, hk⟩ :=
    C3_frequency_amended ⟨true, "PSRFITS", 0, 0, 0, some 2, some 0, some 2, "PSR"⟩
      2 0 2 rfl rfl rfl 1 (by decide) (by decide)
  rw [hf]
  simpa using hk

/-! ## Claims about the stream-combination engine -/

/-- When the consistency asserts all pass, every later stream agrees with
the first on the four checked attributes. -/
theorem checkConsistency_eq_none (ih0 : StreamModel) (rest : List StreamModel)
    (h : checkConsistency ih0 rest = none) :
    ∀ ih ∈ rest, ih.sample_rate = ih0.sample_rate ∧ ih.dtype = ih0.dtype ∧
      ih.start_time = ih0.start_time ∧ ih.len0 = ih0.len0 := by
  induction rest with
  | nil => simp
  | cons ih rest IH =>
      unfold checkConsistency at h
      split_ifs at h with h1 h2 h3 h4
      intro ih2 hmem
      rcases List.mem_cons.mp hmem with rfl | hmem2
      · exact ⟨by simpa using h1, by simpa using h2, by simpa using h3, by simpa using h4⟩
      · exact IH h ih2 hmem2

/-- Inversion of a successful construction: the group was non-empty, the
consistency asserts passed, the probe succeeded with axis-0 length 7, and
the combined shape is `(ih0.shape[0],) + probe.shape[1:]`. -/
theorem initCombine_ok_inv (ihs : List StreamModel) (task : TaskModel)
    (c : CombinedModel) (h : initCombine ihs task = .ok c) :
    ∃ ih0 rest a, ihs = ih0 :: rest ∧ checkConsistency ih0 rest = none ∧
      task.runQ (mkFakes ihs) = some a ∧ a.rows.length = 7 ∧
      c.shape0 = ih0.len0 ∧ c.sshape = a.sshape := by
  match ihs with
  | [] => exact absurd h (by simp [initCombine])
  | ih0 :: rest =>
    refine ⟨ih0, rest, ?_⟩
    simp only [initCombine] at h
    split at h
    · exact absurd h (by simp)
    next hcc =>
      split at h
      · exact absurd h (by simp)
      next a hrq =>
        refine ⟨a, rfl, hcc, hrq, ?_⟩
        split at h
        · exact absurd h (by simp)
        next h7 =>
          split at h
          · exact absurd h (by simp)
          next f hf =>
            split at h
            · exact absurd h (by simp)
            next sb hsb =>
              split at h
              · exact absurd h (by simp)
              next p hp =>
                have hc := Except.ok.inj h
                refine ⟨by omega, ?_, ?_⟩ <;> rw [← hc]

/-- C2: whenever construction succeeds, the combined stream's axis-0
length equals every member's axis-0 length and its sample shape is the
non-time shape of the probe output; and any task whose probe output does
not have axis-0 length 7 makes construction fail. -/
theorem C2_combined_shape (ihs : List StreamModel) (task : TaskModel) :
    (∀ c, initCombine ihs task = .ok c →
      (∀ ih ∈ ihs, c.shape0 = ih.len0) ∧
      ∀ a, task.runQ (mkFakes ihs) = some a → c.sshape = a.sshape)
    ∧ (∀ a, task.runQ (mkFakes ihs) = some a → a.rows.length ≠ 7 →
        ∀ c, initCombine ihs task ≠ .ok c) := by
  constructor
  · intro c hok
    obtain ⟨ih0, rest, a, rfl, hcc, hrq, h7, hs0, hsh⟩ := initCombine_ok_inv _ _ _ hok
    constructor
    · intro ih hmem
      rcases List.mem_cons.mp hmem with rfl | hmem2
      · exact hs0
      · rw [hs0, ← (checkConsistency_eq_none ih0 rest hcc ih hmem2).2.2.2]
    · intro a2 hrq2
      rw [hrq2] at hrq
      rw [hsh, Option.some.inj hrq]
  · intro a hrq h7 c hok
    obtain ⟨ih0, rest, a2, heq, -, hrq2, h72, -, -⟩ := initCombine_ok_inv _ _ _ hok
    rw [hrq] at hrq2
    exact h7 (Option.some.inj hrq2 ▸ h72)

/-- C2 witness: concatenating the 4-sample streams `s2A` (shape (4, 2))
and `s2B` (shape (4, 3)) gives a combined stream of shape (4, 5), and the
row-dropping task `c2BadTask` (probe output length 3) is rejected. -/
theorem C2_combined_shape_witness :
    initCombine [s2A, s2B] concatTask =
      .ok ⟨4, [5], none, none, none⟩ ∧
    (⟨4, [5], none, none, none⟩ : CombinedModel).shape0 = s2A.len0 ∧
    (⟨4, [5], none, none, none⟩ : CombinedModel).shape0 = s2B.len0 ∧
    initCombine [s2A, s2B] c2BadTask ≠ .ok c2Dummy := by
  have hok : initCombine [s2A, s2B] concatTask = .ok ⟨4, [5], none, none, none⟩ := by rfl
  have H := (C2_combined_shape [s2A, s2B] concatTask).1 _ hok
  refine ⟨hok, H.1 s2A (by simp), H.1 s2B (by simp), ?_⟩
  exact (C2_combined_shape [s2A, s2B] c2BadTask).2
    ⟨List.replicate 3 (List.replicate 2 0), [2]⟩ rfl (by simp) c2Dummy

/-- When some later stream disagrees with the first on one of the four
checked attributes, the consistency pass stops at the first failing
assert, which names an attribute genuinely in disagreement. -/
theorem checkConsistency_mismatch (ih0 : StreamModel) (rest : List StreamModel)
    (h : ∃ ih ∈ rest, ih.sample_rate ≠ ih0.sample_rate ∨ ih.dtype ≠ ih0.dtype ∨
        ih.start_time ≠ ih0.start_time ∨ ih.len0 ≠ ih0.len0) :
    ∃ attr, checkConsistency ih0 rest = some (.consistency attr) ∧
      ∃ ih ∈ rest,
        (attr = "sample_rate" ∧ ih.sample_rate ≠ ih0.sample_rate) ∨
        (attr = "dtype" ∧ ih.dtype ≠ ih0.dtype) ∨
        (attr = "start_time" ∧ ih.start_time ≠ ih0.start_time) ∨
        (attr = "shape[0]" ∧ ih.len0 ≠ ih0.len0) := by
  induction rest with
  | nil => simp at h
  | cons ih rest IH =>
      unfold checkConsistency
      by_cases h1 : ih.sample_rate = ih0.sample_rate
      · by_cases h2 : ih.dtype = ih0.dtype
        · by_cases h3 : ih.start_time = ih0.start_time
          · by_cases h4 : ih.len0 = ih0.len0
            · rw [if_neg (by simpa using h1), if_neg (by simpa using h2),
                  if_neg (by simpa using h3), if_neg (by simpa using h4)]
              have hrest : ∃ x ∈ rest, x.sample_rate ≠ ih0.sample_rate ∨
                  x.dtype ≠ ih0.dtype ∨ x.start_time ≠ ih0.start_time ∨
                  x.len0 ≠ ih0.len0 := by
                obtain ⟨x, hx, hne⟩ := h
                rcases List.mem_cons.mp hx with rfl | hx2
                · tauto
                · exact ⟨x, hx2, hne⟩
              obtain ⟨attr, hcc, x, hx, hprop⟩ := IH hrest
              exact ⟨attr, hcc, x, by simp [hx], hprop⟩
            · rw [if_neg (by simpa using h1), if_neg (by simpa using h2),
                  if_neg (by simpa using h3), if_pos h4]
              exact ⟨"shape[0]", rfl, ih, by simp, Or.inr (Or.inr (Or.inr ⟨rfl, h4⟩))⟩
          · rw [if_neg (by simpa using h1), if_neg (by simpa using h2), if_pos h3]
            exact ⟨"start_time", rfl, ih, by simp, Or.inr (Or.inr (Or.inl ⟨rfl, h3⟩))⟩
        · rw [if_neg (by simpa using h1), if_pos h2]
          exact ⟨"dtype", rfl, ih, by simp, Or.inr (Or.inl ⟨rfl, h2⟩)⟩
      · rw [if_pos h1]
        exact ⟨"sample_rate", rfl, ih, by simp, Or.inl ⟨rfl, h1⟩⟩

/-- C4: a group whose later member differs from the first in sample rate,
dtype, start time or axis-0 length fails construction with the
consistency error naming an attribute on which some member disagrees. -/
theorem C4_consistency_failure (ih0 : StreamModel) (rest : List StreamModel)
    (task : TaskModel)
    (h : ∃ ih ∈ rest, ih.sample_rate ≠ ih0.sample_rate ∨ ih.dtype ≠ ih0.dtype ∨
        ih.start_time ≠ ih0.start_time ∨ ih.len0 ≠ ih0.len0) :
    ∃ attr, initCombine (ih0 :: rest) task = .error (.consistency attr) ∧
      ∃ ih ∈ rest,
        (attr = "sample_rate" ∧ ih.sample_rate ≠ ih0.sample_rate) ∨
        (attr = "dtype" ∧ ih.dtype ≠ ih0.dtype) ∨
        (attr = "start_time" ∧ ih.start_time ≠ ih0.start_time) ∨
        (attr = "shape[0]" ∧ ih.len0 ≠ ih0.len0) := by
  obtain ⟨attr, hcc, hw⟩ := checkConsistency_mismatch ih0 rest h
  exact ⟨attr, by simp [initCombine, hcc], hw⟩

/-- C4 witness: `s4B` differs from `s4A` only in dtype, and construction
fails with the consistency error tagged `dtype`. -/
theorem C4_consistency_failure_witness :
    initCombine [s4A, s4B] concatTask = .error (.consistency "dtype") ∧
    s4B.dtype ≠ s4A.dtype := by
  obtain ⟨attr, hinit, -⟩ :=
    C4_consistency_failure s4A [s4B] concatTask
      ⟨s4B, by simp, Or.inr (Or.inl (by decide))⟩
  exact ⟨by rfl, by decide⟩

/-- C5 counterexample: with the first member's frequency a unit-carrying
quantity and the second member's frequency absent, combination fails in
the unit-stripping comprehension (`None.to_value(unit)` raises an
`AttributeError`), which sits before the wrapped task call, so the raised
error is not the attribute-naming combination error and no broadcast
result is produced. -/
theorem C5_combine_attr_counterexample :
    combineAttr [s5U, s5N] concatTask (·.frequency) "frequency" = .error .stripError ∧
    CombineError.stripError ≠ .attrCombination "frequency" ∧
    (combineAttr [s5U, s5N] concatTask (·.frequency) "frequency").isOk = false := by
  exact ⟨rfl, by decide, rfl⟩

/-- C5 amended: combining an attribute that is `None` on every member
yields `None`; when at least one member defines it, the outcome is either
a failure — the wrapped task error naming the attribute, the unwrapped
unit-stripping error (first value carries a unit while some member lacks
the attribute or carries none), or the unwrapped row-0 lookup error — or
a combined value produced by the task from the broadcast member values;
absent members enter that broadcast as `None` markers, never as a numeric
default, as the concatenation instance shows: the absent member's segment
of the combined attribute is literally its `None` filling. -/
theorem C5_combine_attr_amended (ihs : List StreamModel) (task : TaskModel)
    (A : StreamModel → Option AttrVal) (name : String) :
    ((∀ ih ∈ ihs, A ih = none) → combineAttr ihs task A name = .ok none)
    ∧ ((∃ ih ∈ ihs, A ih ≠ none) →
        combineAttr ihs task A name = .error .stripError ∨
        combineAttr ihs task A name = .error (.attrCombination name) ∨
        combineAttr ihs task A name = .error .resultEmpty ∨
        ∃ r0 u, combineAttr ihs task A name = .ok (some ⟨r0, u⟩))
    ∧ (∀ s1 s2 xs, ihs = [s1, s2] → task = concatTask →
        A s1 = some (.plain xs) → A s2 = none →
        s1.sshape ≠ [] → s1.sshape.length = s2.sshape.length →
        s1.sshape.tail = s2.sshape.tail →
        combineAttr ihs task A name =
          .ok (some ⟨xs.map some ++ List.replicate s2.sshape.prod none, none⟩)) := by
  refine ⟨?_, ?_, ?_⟩
  · intro hall
    simp only [combineAttr]
    split
    · rfl
    next hfail =>
      refine absurd ?_ hfail
      simp only [List.all_eq_true, decide_eq_true_eq]
      intro v hv
      obtain ⟨ih, hih, rfl⟩ := List.mem_map.mp hv
      exact hall ih hih
  · rintro ⟨ih, hmem, hne⟩
    simp only [combineAttr]
    split
    next hcond =>
      have := List.all_eq_true.mp hcond (A ih) (List.mem_map_of_mem A hmem)
      simp only [decide_eq_true_eq] at this
      exact absurd this hne
    next =>
      split
      · split
        · exact Or.inl rfl
        · split
          · exact Or.inr (Or.inl rfl)
          · split
            · exact Or.inr (Or.inr (Or.inl rfl))
            next r0 _ => exact Or.inr (Or.inr (Or.inr ⟨r0, _, rfl⟩))
      · split
        · exact Or.inr (Or.inl rfl)
        · split
          · exact Or.inr (Or.inr (Or.inl rfl))
          next r0 _ => exact Or.inr (Or.inr (Or.inr ⟨r0, _, rfl⟩))
  · rintro s1 s2 xs rfl rfl hA1 hA2 hne hndim htail
    have hlen0 : s1.sshape.length ≠ 0 := by
      simpa [List.length_eq_zero] using hne
    simp only [combineAttr, List.map_cons, List.map_nil, hA1, hA2]
    rw [if_neg (by simp)]
    simp only [List.headD_cons, unitOf]
    simp only [concatTask, List.zipWith_cons_cons, List.zipWith_nil_right, broadcastAttr]
    simp only [npConcatAx1]
    rw [if_neg (by simpa using hlen0)]
    rw [if_pos (by simp [hndim.symm, htail.symm])]
    simp [joinRows]

/-- C5 witness: two attribute-free streams combine to a `None` attribute;
concatenating a defined plain frequency `(3, 4)` with an absent one gives
`(3, 4, None)` — the absent member's slot is the `None` marker, not a
numeric default. -/
theorem C5_combine_attr_amended_witness :
    combineAttr [s5M, s5M] concatTask (·.frequency) "frequency" = .ok none ∧
    combineAttr [s5P, s5M] concatTask (·.frequency) "frequency" =
      .ok (some ⟨[some 3, some 4, none], none⟩) := by
  constructor
  · exact (C5_combine_attr_amended [s5M, s5M] concatTask (·.frequency) "frequency").1
      (by decide)
  · have := (C5_combine_attr_amended [s5P, s5M] concatTask (·.frequency) "frequency").2.2
      s5P s5M [3, 4] rfl rfl rfl rfl (by decide) (by decide) (by decide)
    simpa [s5M] using this

/-- Wrapping every extension succeeds pointwise. -/
theorem mapExcept_ok (f : α → Except ε β) (g : α → β)
    (l : List α) (h : ∀ s ∈ l, f s = .ok (g s)) : mapExcept f l = .ok (l.map g) := by
  induction l with
  | nil => rfl
  | cons x xs IH =>
      unfold mapExcept
      rw [h x (by simp), IH (fun s hs => h s (by simp [hs]))]
      rfl

/-- With exactly one verifying primary HDU and every SUBINT extension
wrapping successfully, `get_readers` returns one reader per SUBINT
extension, in order. -/
theorem get_readers_ok (hdus : List RawHDU) (p : PrimaryHDUModel)
    (hprim : hdus.filterMap (fun h => match h with | .primary q => some q | _ => none) = [p])
    (hpv : p.verify = true)
    (hsub : ∀ s ∈ hdus.filterMap (fun h => match h with | .subint s => some s | _ => none),
        mkSubintHDU p s = .ok ⟨s.header, s.data, p⟩) :
    get_readers hdus =
      .ok ((hdus.filterMap (fun h => match h with | .subint s => some s | _ => none)).map
        fun s => (⟨s.header, s.data, p⟩ : SubintHDUModel)) := by
  simp only [get_readers, hprim]
  rw [if_pos hpv]
  exact mapExcept_ok _ _ _ hsub

/-- C6: under the same hypotheses, opening fails with the runtime error
when the file holds zero or at least two SUBINT extensions, and with
exactly one it returns that reader, whose axis-0 extent is the row count
times `samples_per_frame`. -/
theorem C6_open_subint_count (hdus : List RawHDU) (p : PrimaryHDUModel)
    (hprim : hdus.filterMap (fun h => match h with | .primary q => some q | _ => none) = [p])
    (hpv : p.verify = true)
    (hsub : ∀ s ∈ hdus.filterMap (fun h => match h with | .subint s => some s | _ => none),
        mkSubintHDU p s = .ok ⟨s.header, s.data, p⟩) :
    ((hdus.filterMap fun h => match h with | .subint s => some s | _ => none).length ≠ 1 →
      psrfitsOpen hdus "r" = .error .runtimeError)
    ∧ (∀ s, (hdus.filterMap fun h => match h with | .subint s => some s | _ => none) = [s] →
        psrfitsOpen hdus "r" = .ok ⟨s.header, s.data, p⟩ ∧
        SubintHDUModel.shape0 ⟨s.header, s.data, p⟩ =
          SubintHDUModel.nrow ⟨s.header, s.data, p⟩ *
            SubintHDUModel.samples_per_frame ⟨s.header, s.data, p⟩) := by
  have hgr := get_readers_ok hdus p hprim hpv hsub
  constructor
  · intro hcount
    cases hs : hdus.filterMap fun h => match h with | .subint s => some s | _ => none with
    | nil =>
        rw [hs] at hgr
        simp [psrfitsOpen, hgr]
    | cons a tail =>
        cases tail with
        | nil => exact absurd (by rw [hs]; rfl) hcount
        | cons b tl =>
            rw [hs] at hgr
            simp [psrfitsOpen, hgr]
  · intro s hs
    rw [hs] at hgr
    exact ⟨by simp [psrfitsOpen, hgr], rfl⟩

/-- The concrete extension `c6S` passes mode dispatch and verification. -/
theorem c6S_wraps : mkSubintHDU c6P c6S = .ok c6Hdu := by
  unfold mkSubintHDU
  rw [if_neg (by decide)]
  rw [if_pos ?_]
  · rfl
  · simp only [verifyPSR, Bool.and_eq_true]
    refine ⟨⟨⟨⟨⟨by decide, by decide⟩, by decide⟩, by decide⟩, ?_⟩, by decide⟩
    show (c6S.data.TSUBINT.all fun t => npIsClose (c6S.data.TSUBINT.headD 0) t) = true
    norm_num [c6S, npIsClose]

/-- C6 witness: with the primary `c6P`, a file with zero or two copies of
the SUBINT extension `c6S` fails with the runtime error; with exactly one
it opens to the wrapped HDU, whose axis-0 extent is `nrow * 1 = 1`. -/
theorem C6_open_subint_count_witness :
    psrfitsOpen [.primary c6P] "r" = .error .runtimeError ∧
    psrfitsOpen [.primary c6P, .subint c6S, .subint c6S] "r" = .error .runtimeError ∧
    psrfitsOpen [.primary c6P, .subint c6S] "r" = .ok c6Hdu ∧
    c6Hdu.shape0 = 1 := by
  refine ⟨?_, ?_, ?_, rfl⟩
  · exact (C6_open_subint_count [.primary c6P] c6P rfl rfl (by simp)).1 (by decide)
  · refine (C6_open_subint_count [.primary c6P, .subint c6S, .subint c6S] c6P rfl rfl
      ?_).1 (by decide)
    intro s hs
    have : s = c6S := by
      have he : ([RawHDU.primary c6P, .subint c6S, .subint c6S].filterMap fun h =>
          match h with | .subint s => some s | _ => none) = [c6S, c6S] := rfl
      rw [he] at hs
      simpa using hs
    rw [this]
    exact c6S_wraps
  · refine ((C6_open_subint_count [.primary c6P, .subint c6S] c6P rfl rfl ?_).2 c6S rfl).1
    intro s hs
    have : s = c6S := by
      have he : ([RawHDU.primary c6P, .subint c6S].filterMap fun h =>
          match h with | .subint s => some s | _ => none) = [c6S] := rfl
      rw [he] at hs
      simpa using hs
    rw [this]
    exact c6S_wraps

/-- Row-wise appending of two time blocks, then slicing every row at the
first block's row width, recovers both blocks. -/
theorem zipWith_append_slices (n : ℕ) :
    ∀ (r1 r2 : List (List ℚ)), r1.length = r2.length → (∀ x ∈ r1, x.length = n) →
      (List.zipWith (fun x y => x ++ y) r1 r2).map (List.take n) = r1 ∧
      (List.zipWith (fun x y => x ++ y) r1 r2).map (List.drop n) = r2 := by
  intro r1
  induction r1 with
  | nil =>
      intro r2 hl _
      have : r2 = [] := by simpa using hl.symm
      simp [this]
  | cons x xs IH =>
      intro r2 hl hx
      cases r2 with
      | nil => simp at hl
      | cons y ys =>
          obtain ⟨IH1, IH2⟩ := IH ys (by simpa using hl)
            (fun z hz => hx z (by simp [hz]))
          have hxl : x.length = n := hx x (by simp)
          constructor
          · simp only [List.zipWith_cons_cons, List.map_cons, IH1]
            rw [← hxl, List.take_left]
          · simp only [List.zipWith_cons_cons, List.map_cons, IH2]
            rw [← hxl, List.drop_left]

/-- C8: reading any frame of the concatenation (along axis 1) of two
combinable streams, then slicing each combined row back at the first
stream's flattened sample width, reproduces both members' original frame
data exactly. -/
theorem C8_concat_roundtrip (s1 s2 : StreamModel) (spf i : ℕ)
    (hlen : s1.rows.length = s2.rows.length)
    (hr1 : ∀ r ∈ s1.rows, r.length = s1.sshape.prod)
    (hne : s1.sshape ≠ [])
    (hndim : s1.sshape.length = s2.sshape.length)
    (htail : s1.sshape.tail = s2.sshape.tail) :
    ∃ a, readFrame [s1, s2] concatTask spf i = some a ∧
      a.rows.map (List.take s1.sshape.prod) = (s1.rows.drop (i * spf)).take spf ∧
      a.rows.map (List.drop s1.sshape.prod) = (s2.rows.drop (i * spf)).take spf := by
  have hblen : ((s1.rows.drop (i * spf)).take spf).length
      = ((s2.rows.drop (i * spf)).take spf).length := by
    simp [hlen]
  have hbx : ∀ x ∈ (s1.rows.drop (i * spf)).take spf, x.length = s1.sshape.prod :=
    fun x hx => hr1 x (List.drop_subset _ _ (List.take_subset _ _ hx))
  obtain ⟨h1, h2⟩ := zipWith_append_slices s1.sshape.prod
    ((s1.rows.drop (i * spf)).take spf) ((s2.rows.drop (i * spf)).take spf) hblen hbx
  refine ⟨⟨List.zipWith (fun x y => x ++ y) ((s1.rows.drop (i * spf)).take spf)
      ((s2.rows.drop (i * spf)).take spf),
      (s1.sshape.headD 0 + s2.sshape.headD 0) :: s1.sshape.tail⟩, ?_, h1, h2⟩
  simp only [readFrame, concatTask, List.map_cons, List.map_nil, npConcatAx1]
  rw [if_neg (by simpa [List.length_eq_zero] using hne)]
  rw [if_pos (by simp [hblen.symm, hndim.symm, htail.symm])]
  simp [joinRows]

/-- C8 witness: concatenating `s8A` (3 x (2,)) and `s8B` (3 x (1,)) and
reading frame 1 with 1-sample frames gives the combined row `(3, 4, 20)`,
whose slices at width 2 are the original member samples. -/
theorem C8_concat_roundtrip_witness :
    readFrame [s8A, s8B] concatTask 1 1 = some ⟨[[3, 4, 20]], [3]⟩ ∧
    [[(3 : ℚ), 4, 20]].map (List.take 2) = [[3, 4]] ∧
    [[(3 : ℚ), 4, 20]].map (List.drop 2) = [[20]] := by
  obtain ⟨a, hread, h1, h2⟩ := C8_concat_roundtrip s8A s8B 1 1 rfl
    (by decide) (by decide) (by decide) (by decide)
  have hav : readFrame [s8A, s8B] concatTask 1 1 = some ⟨[[3, 4, 20]], [3]⟩ := rfl
  exact ⟨hav, by decide, by decide⟩
